import Mathlib

/-!
Verification development for the invoice-extraction pipeline
(document normalizer, extraction client, vendor reconciliation,
extraction orchestrator).

The definitions below are a shallow embedding of the TypeScript source:

* server/src/services/imageProcessor.ts  (normalizer)
* server/src/services/aiExtractor.ts     (extraction client)
* server/src/routes/invoices.ts          (orchestrator runExtraction and the
  PATCH review/update route)
* shared/src/schema.ts                   (tables and zod schemas)

Monetary amounts and confidence scores are modelled as rationals, pixel
dimensions as naturals, the database as an explicit state record.  JS
Math.round is floor (x + 1/2) for the non-negative inputs that occur here.
Buffers, timestamps and encoding details that no property depends on are
omitted; each definition notes the source lines it embeds.
-/

namespace InvoiceAI

/-! ## Document normalizer (imageProcessor.ts) -/

/-- imageProcessor.ts line 14. -/
def MAX_DIMENSION : ℕ := 2048

/-- imageProcessor.ts line 15. -/
def MAX_PDF_PAGES : ℕ := 5

/-- JS Math.round on the non-negative values used by the normalizer. -/
def jsRound (q : ℚ) : ℤ := ⌊q + 1/2⌋

/-- imageProcessor.ts lines 161-174: keep dimensions that already fit inside
MAX_DIMENSION, otherwise scale both axes by min(MAXDIM/w, MAXDIM/h) and
round. -/
def computeResizeDimensions (origWidth origHeight : ℕ) : ℤ × ℤ :=
  if origWidth ≤ MAX_DIMENSION ∧ origHeight ≤ MAX_DIMENSION then
    ((origWidth : ℤ), (origHeight : ℤ))
  else
    let r : ℚ := min ((MAX_DIMENSION : ℚ) / origWidth) ((MAX_DIMENSION : ℚ) / origHeight)
    (jsRound (origWidth * r), jsRound (origHeight * r))

inductive FileType
  | pdf
  | image
deriving DecidableEq

/-- Reported output of the normalizer (imageProcessor.ts ProcessedImage,
lines 5-12; the pixel buffer and MIME type are omitted).  `pagesRendered`
records how many pages were passed to the renderer (the `pages:` option). -/
structure ProcessedImage where
  width : ℤ
  height : ℤ
  originalFileType : FileType
  pageCount : ℕ
  pagesRendered : ℕ
deriving DecidableEq

/-- imageProcessor.ts lines 36-59: single image path; `metaWidth`/`metaHeight`
are the decoded metadata dimensions. -/
def processImage (metaWidth metaHeight : ℕ) : ProcessedImage :=
  let d := computeResizeDimensions metaWidth metaHeight
  { width := d.1, height := d.2, originalFileType := .image,
    pageCount := 1, pagesRendered := 1 }

/-- imageProcessor.ts lines 88-113: one-page PDF rendered at density 300. -/
def renderSinglePage (metaWidth metaHeight : ℕ) (totalPages : ℕ) : ProcessedImage :=
  let d := computeResizeDimensions metaWidth metaHeight
  { width := d.1, height := d.2, originalFileType := .pdf,
    pageCount := totalPages, pagesRendered := 1 }

/-- imageProcessor.ts lines 115-159: multi-page composite; the width is
clamped to MAX_DIMENSION, the height scales by targetWidth/rawWidth and may
exceed MAX_DIMENSION. -/
def renderAndStitchPages (rawWidth rawHeight : ℕ) (pagesToRender totalPages : ℕ) :
    ProcessedImage :=
  let targetWidth : ℕ := min rawWidth MAX_DIMENSION
  let resizeScale : ℚ := (targetWidth : ℚ) / (rawWidth : ℚ)
  let targetHeight : ℤ := jsRound ((rawHeight : ℚ) * resizeScale)
  { width := (targetWidth : ℤ), height := targetHeight, originalFileType := .pdf,
    pageCount := totalPages, pagesRendered := pagesToRender }

/-- imageProcessor.ts lines 61-86: probe the total page count, cap rendering
at MAX_PDF_PAGES, dispatch to the single-page or composite path.  The four
dimension arguments are the metadata the two render paths would observe. -/
def processPdf (totalPages : ℕ) (singleW singleH compW compH : ℕ) : ProcessedImage :=
  let pagesToRender := min totalPages MAX_PDF_PAGES
  if pagesToRender = 1 then
    renderSinglePage singleW singleH totalPages
  else
    renderAndStitchPages compW compH pagesToRender totalPages

lemma jsRound_le_of_le {x : ℚ} {n : ℤ} (h : x ≤ (n : ℚ)) : jsRound x ≤ n := by
  have h1 : x + 1/2 < ((n + 1 : ℤ) : ℚ) := by push_cast; linarith
  have h2 : ⌊x + 1/2⌋ < n + 1 := Int.floor_lt.mpr h1
  unfold jsRound
  omega

lemma scaled_dim_le {d : ℕ} (hd : 0 < d) (r : ℚ) (hr : r ≤ (2048 : ℚ) / d) :
    (d : ℚ) * r ≤ 2048 := by
  have hd0 : (d : ℚ) ≠ 0 := Nat.cast_ne_zero.mpr hd.ne'
  have h2 : (d : ℚ) * ((2048 : ℚ) / d) = 2048 := by field_simp
  calc (d : ℚ) * r ≤ (d : ℚ) * ((2048 : ℚ) / d) :=
        mul_le_mul_of_nonneg_left hr (by positivity)
    _ = 2048 := h2

/-- C7: a single image with both dimensions at most 2048 is reported at its
input dimensions unchanged; a larger image is reported at
round(dim * min(2048/width, 2048/height)) on each axis, and both reported
axes are at most 2048. -/
theorem image_dimensions_spec (w h : ℕ) (hw : 0 < w) (hh : 0 < h) :
    ((w ≤ 2048 ∧ h ≤ 2048) →
      (processImage w h).width = (w : ℤ) ∧ (processImage w h).height = (h : ℤ)) ∧
    (¬(w ≤ 2048 ∧ h ≤ 2048) →
      (processImage w h).width = jsRound ((w : ℚ) * min ((2048 : ℚ) / w) ((2048 : ℚ) / h)) ∧
      (processImage w h).height = jsRound ((h : ℚ) * min ((2048 : ℚ) / w) ((2048 : ℚ) / h)) ∧
      max (processImage w h).width (processImage w h).height ≤ 2048) := by
  constructor
  · intro hle
    simp [processImage, computeResizeDimensions, MAX_DIMENSION, hle.1, hle.2]
  · intro hgt
    have hrn : ¬(w ≤ MAX_DIMENSION ∧ h ≤ MAX_DIMENSION) := by
      simpa [MAX_DIMENSION] using hgt
    have hmin0 : (0 : ℚ) ≤ min ((2048 : ℚ) / w) ((2048 : ℚ) / h) := by positivity
    have hbw : (w : ℚ) * min ((2048 : ℚ) / w) ((2048 : ℚ) / h) ≤ 2048 :=
      scaled_dim_le hw _ (min_le_left _ _)
    have hbh : (h : ℚ) * min ((2048 : ℚ) / w) ((2048 : ℚ) / h) ≤ 2048 :=
      scaled_dim_le hh _ (min_le_right _ _)
    have heqw : (processImage w h).width =
        jsRound ((w : ℚ) * min ((2048 : ℚ) / w) ((2048 : ℚ) / h)) := by
      simp [processImage, computeResizeDimensions, MAX_DIMENSION, hgt]
    have heqh : (processImage w h).height =
        jsRound ((h : ℚ) * min ((2048 : ℚ) / w) ((2048 : ℚ) / h)) := by
      simp [processImage, computeResizeDimensions, MAX_DIMENSION, hgt]
    refine ⟨heqw, heqh, ?_⟩
    rw [heqw, heqh]
    exact max_le (jsRound_le_of_le (by exact_mod_cast hbw))
      (jsRound_le_of_le (by exact_mod_cast hbh))

/-- C8: the PDF path renders min(P, 5) pages — exactly P pages when the
document has P ≤ 5 pages, exactly 5 pages when P > 5 — and the reported
pageCount metadata is always the true total P. -/
theorem pdf_page_cap (P sW sH cW cH : ℕ) :
    (P ≤ 5 → (processPdf P sW sH cW cH).pagesRendered = P) ∧
    (5 < P → (processPdf P sW sH cW cH).pagesRendered = 5) ∧
    (processPdf P sW sH cW cH).pageCount = P := by
  have hr : (processPdf P sW sH cW cH).pagesRendered = min P 5 ∧
      (processPdf P sW sH cW cH).pageCount = P := by
    unfold processPdf MAX_PDF_PAGES
    dsimp only
    split
    · rename_i h1
      constructor
      · simp only [renderSinglePage]
        omega
      · simp [renderSinglePage]
    · exact ⟨rfl, rfl⟩
  obtain ⟨h1, h2⟩ := hr
  refine ⟨fun hle => ?_, fun hgt => ?_, h2⟩ <;> omega

/-- C9: for a multi-page composite render the reported width is exactly
min(rawWidth, 2048), hence never exceeds 2048, the reported height is
round(rawHeight * (targetWidth / rawWidth)), and the height can exceed
2048. -/
theorem composite_dimensions_spec :
    (∀ rawW rawH pagesToRender totalPages : ℕ,
      (renderAndStitchPages rawW rawH pagesToRender totalPages).width =
        ((min rawW 2048 : ℕ) : ℤ) ∧
      (renderAndStitchPages rawW rawH pagesToRender totalPages).width ≤ 2048 ∧
      (renderAndStitchPages rawW rawH pagesToRender totalPages).height =
        jsRound ((rawH : ℚ) * (((min rawW 2048 : ℕ) : ℚ) / (rawW : ℚ)))) ∧
    (∃ rawW rawH pagesToRender totalPages : ℕ,
      2048 < (renderAndStitchPages rawW rawH pagesToRender totalPages).height) := by
  constructor
  · intro rawW rawH p t
    refine ⟨rfl, ?_, rfl⟩
    have := min_le_right rawW 2048
    simp only [renderAndStitchPages, MAX_DIMENSION]
    omega
  · refine ⟨1024, 4096, 2, 2, ?_⟩
    have h1 : (renderAndStitchPages 1024 4096 2 2).height =
        ⌊(4096 : ℚ) * (((min 1024 2048 : ℕ) : ℚ) / (1024 : ℚ)) + 1/2⌋ := rfl
    have hm : (min 1024 2048 : ℕ) = 1024 := by decide
    have h2 : (4096 : ℚ) * (((min 1024 2048 : ℕ) : ℚ) / (1024 : ℚ)) + 1/2 =
        (4096 : ℚ) + 1/2 := by
      rw [hm]; norm_num
    have h3 : ⌊(4096 : ℚ) + 1/2⌋ = (4096 : ℤ) := by
      rw [Int.floor_eq_iff]; norm_num
    rw [h1, h2, h3]
    norm_num

/-! ## Extraction data model (shared/src/schema.ts, aiExtractor.ts) -/

/-- Vendor sub-record of the model output (aiExtractor.ts lines 13-19). -/
structure VendorInfo where
  name : String
  address : Option String
  taxId : Option String
  email : Option String
  phone : Option String
deriving DecidableEq

/-- One line item of the model output (aiExtractor.ts lines 28-42). -/
structure AiLineItem where
  lineNumber : Option ℕ
  description : String
  quantity : Option ℚ
  unitPrice : Option ℚ
  amount : ℚ
  taxRate : Option ℚ
  taxAmount : Option ℚ
  category : Option String
  sku : Option String
  unit : Option String
  confidence : Option ℚ
deriving DecidableEq

/-- The structured extraction output (shared/src/schema.ts lines 208-240,
aiExtractor.ts lines 12-54).  The fieldConfidences map is a list of named
scores. -/
structure ExtractionResult where
  vendor : VendorInfo
  invoiceNumber : Option String
  invoiceDate : Option String
  dueDate : Option String
  currency : String
  subtotal : Option ℚ
  taxAmount : Option ℚ
  discountAmount : Option ℚ
  totalAmount : ℚ
  lineItems : List AiLineItem
  confidence : ℚ
  fieldConfidences : List (String × ℚ)
deriving DecidableEq

/-- aiExtractor.ts lines 84-89: data plus provenance. -/
structure ExtractionResponse where
  data : ExtractionResult
  model : String
  inputTokens : ℕ
  outputTokens : ℕ
deriving DecidableEq

/-- shared/src/schema.ts line 238: the shared extractionResultSchema bounds
confidence with z.number().min(0).max(1). -/
def extractionResultSchemaConfidenceOk (r : ExtractionResult) : Bool :=
  decide ((0 : ℚ) ≤ r.confidence) && decide (r.confidence ≤ 1)

/-! ## Persistent tables (shared/src/schema.ts lines 21-147) -/

inductive InvoiceStatus
  | uploading
  | uploaded
  | processing
  | extracted
  | review
  | approved
  | rejected
  | failed
deriving DecidableEq

/-- The rawExtraction column: either the full model payload, or the
{error, timestamp} object written by the orchestrator's catch handler
(invoices.ts lines 528-531). -/
inductive RawExtraction
  | payload (data : ExtractionResult)
  | error (message : String) (timestamp : String)
deriving DecidableEq

/-- vendors table row (shared/src/schema.ts lines 40-70; timestamps and
metadata omitted, the generated uuid is a natural id). -/
structure VendorRow where
  id : ℕ
  name : String
  normalizedName : String
  aliases : List String
  taxId : Option String
  address : Option String
  email : Option String
  phone : Option String
  totalInvoices : ℕ
  totalSpend : ℚ
  averageInvoiceAmount : ℚ
deriving DecidableEq

/-- invoices table row (shared/src/schema.ts lines 74-122; file metadata and
timestamps omitted — only columns the extraction pipeline reads or writes). -/
structure InvoiceRow where
  status : InvoiceStatus
  vendorId : Option ℕ
  vendorName : Option String
  invoiceNumber : Option String
  invoiceDate : Option String
  dueDate : Option String
  currency : Option String
  subtotal : Option ℚ
  taxAmount : Option ℚ
  discountAmount : Option ℚ
  totalAmount : Option ℚ
  overallConfidence : Option ℚ
  fieldConfidences : Option (List (String × ℚ))
  rawExtraction : Option RawExtraction
  extractionModel : Option String
  reviewNotes : Option String
deriving DecidableEq

/-- line_items table row (shared/src/schema.ts lines 126-147). -/
structure LineItemRow where
  invoiceId : ℕ
  lineNumber : ℕ
  description : String
  quantity : Option ℚ
  unitPrice : Option ℚ
  amount : ℚ
  taxRate : Option ℚ
  taxAmount : Option ℚ
  category : Option String
  sku : Option String
  unit : Option String
  confidence : ℚ
deriving DecidableEq

/-- Database state touched by one orchestration run: the invoice being
processed, the vendor registry, the line-item store, and the id the next
inserted vendor receives. -/
structure DBState where
  invoice : InvoiceRow
  vendors : List VendorRow
  lineItems : List LineItemRow
  nextVendorId : ℕ
deriving DecidableEq

/-! ## Vendor reconciliation (invoices.ts lines 391-455) -/

/-- trim().toLowerCase() (invoices.ts lines 229 and 395). -/
def normalizeName (s : String) : String := s.trim.toLower

/-- The combined lookup condition (invoices.ts lines 401-407): exact name OR
normalized name OR alias containment. -/
def matchesVendor (v : VendorRow) (aiName : String) : Bool :=
  v.name == aiName || v.normalizedName == normalizeName aiName ||
    v.aliases.contains aiName

/-- Idempotent alias append (invoices.ts lines 413-416 and 219-224). -/
def appendAlias (aliases : List String) (name : String) : List String :=
  if aliases.contains name then aliases else aliases ++ [name]

/-- Aggregate update applied to a matched vendor (invoices.ts lines 418-434):
append the AI name as alias, bump the invoice count, add the invoice total to
cumulative spend, recompute the average as newSpend / newCount. -/
def updatedVendor (v : VendorRow) (aiName : String) (amount : ℚ) : VendorRow :=
  { v with
    aliases := appendAlias v.aliases aiName,
    totalInvoices := v.totalInvoices + 1,
    totalSpend := v.totalSpend + amount,
    averageInvoiceAmount := (v.totalSpend + amount) / ((v.totalInvoices + 1 : ℕ) : ℚ) }

/-- Fresh vendor created on no match (invoices.ts lines 437-452). -/
def newVendorRow (r : ExtractionResult) (vid : ℕ) : VendorRow :=
  { id := vid,
    name := r.vendor.name,
    normalizedName := normalizeName r.vendor.name,
    aliases := [r.vendor.name],
    taxId := r.vendor.taxId,
    address := r.vendor.address,
    email := r.vendor.email,
    phone := r.vendor.phone,
    totalInvoices := 1,
    totalSpend := r.totalAmount,
    averageInvoiceAmount := r.totalAmount }

/-- Vendor upsert inside the persistence transaction (invoices.ts lines
392-455).  An empty vendor name is falsy in JS, so the whole block is
skipped and the invoice keeps a null vendorId. -/
def upsertVendor (st : DBState) (r : ExtractionResult) : Option ℕ × DBState :=
  if r.vendor.name = "" then (none, st)
  else
    match st.vendors.find? (fun v => matchesVendor v r.vendor.name) with
    | some v =>
        let updated := updatedVendor v r.vendor.name r.totalAmount
        (some v.id,
         { st with vendors := st.vendors.map (fun u => if u.id = v.id then updated else u) })
    | none =>
        (some st.nextVendorId,
         { st with vendors := st.vendors ++ [newVendorRow r st.nextVendorId],
                   nextVendorId := st.nextVendorId + 1 })

/-! ## Extraction orchestrator (invoices.ts lines 353-536) -/

/-- invoices.ts line 370. -/
def CONFIDENCE_FLOOR : ℚ := 15/100

/-- map with the 0-based index, as JS Array.prototype.map provides it. -/
def mapWithIndex {α β : Type} (f : ℕ → α → β) : ℕ → List α → List β
  | _, [] => []
  | i, x :: xs => f i x :: mapWithIndex f (i + 1) xs

/-- One inserted line item (invoices.ts lines 496-509): the model's line
number or the 1-based position as fallback, missing per-item confidence
defaulting to the overall confidence. -/
def toLineItemRow (invoiceId : ℕ) (overallConfidence : ℚ) (idx : ℕ)
    (item : AiLineItem) : LineItemRow :=
  { invoiceId := invoiceId,
    lineNumber := item.lineNumber.getD (idx + 1),
    description := item.description,
    quantity := item.quantity,
    unitPrice := item.unitPrice,
    amount := item.amount,
    taxRate := item.taxRate,
    taxAmount := item.taxAmount,
    category := item.category,
    sku := item.sku,
    unit := item.unit,
    confidence := item.confidence.getD overallConfidence }

/-- The orchestrator (invoices.ts lines 353-536).  The outcome of steps 1-2
(processFile and extractInvoiceData, each of which may throw) enters as an
Except value; `now` is the timestamp the catch handler would record.  The
catch handler marks the invoice failed and stores the error message and
timestamp; the confidence gate marks it failed with the payload retained; the
success path runs the vendor upsert, overwrites the invoice, and inserts the
line items (with no delete of previously inserted ones). -/
def runExtraction (invoiceId : ℕ) (stage : Except String ExtractionResponse)
    (now : String) (st : DBState) : DBState :=
  match stage with
  | .error e =>
      { st with invoice := { st.invoice with
          status := .failed,
          rawExtraction := some (.error e now) } }
  | .ok result =>
      if result.data.confidence < CONFIDENCE_FLOOR then
        { st with invoice := { st.invoice with
            status := .failed,
            overallConfidence := some result.data.confidence,
            rawExtraction := some (.payload result.data),
            extractionModel := some result.model,
            reviewNotes := some "Document type unrecognized or illegible" } }
      else
        let vendorId := (upsertVendor st result.data).1
        let st1 := (upsertVendor st result.data).2
        let newItems :=
          mapWithIndex (toLineItemRow invoiceId result.data.confidence) 0
            result.data.lineItems
        { st1 with
          invoice := { st1.invoice with
            status := .review,
            vendorId := vendorId,
            vendorName := some result.data.vendor.name,
            invoiceNumber := result.data.invoiceNumber,
            invoiceDate := result.data.invoiceDate,
            dueDate := result.data.dueDate,
            currency := some result.data.currency,
            subtotal := result.data.subtotal,
            taxAmount := result.data.taxAmount,
            discountAmount := result.data.discountAmount,
            totalAmount := some result.data.totalAmount,
            overallConfidence := some result.data.confidence,
            fieldConfidences := some result.data.fieldConfidences,
            rawExtraction := some (.payload result.data),
            extractionModel := some result.model },
          lineItems :=
            if 0 < result.data.lineItems.length then st1.lineItems ++ newItems
            else st1.lineItems }

/-- POST /:id/extract (invoices.ts lines 62-92): mark the invoice processing
again, then re-run the extraction pipeline. -/
def retryExtraction (invoiceId : ℕ) (stage : Except String ExtractionResponse)
    (now : String) (st : DBState) : DBState :=
  runExtraction invoiceId stage now
    { st with invoice := { st.invoice with status := .processing } }

/-- Sequential orchestrator runs over a list of successful stage outcomes. -/
def runSeq (invoiceId : ℕ) (now : String) (rs : List ExtractionResponse)
    (st : DBState) : DBState :=
  rs.foldl (fun s r => runExtraction invoiceId (.ok r) now s) st

/-- The updated vendor record built in the rename branch (invoices.ts lines
219-232): old name demoted to an alias, name and normalized name
overwritten. -/
def renamedVendor (vendor : VendorRow) (oldName newName : String) : VendorRow :=
  { vendor with
    name := newName,
    normalizedName := normalizeName newName,
    aliases := appendAlias vendor.aliases oldName }

/-- PATCH /:id vendor-rename handling (invoices.ts lines 199-236, then the
vendorName column update of lines 238-258): when the invoice is linked to a
vendor and carries a non-empty stored vendor name different from the new one,
the old name is appended to the vendor's aliases (idempotently) and the
vendor's name and normalized name are overwritten with the new name. -/
def patchVendorRename (st : DBState) (newName : String) : DBState :=
  let st1 :=
    match st.invoice.vendorId, st.invoice.vendorName with
    | some vid, some oldName =>
        if oldName ≠ "" ∧ oldName ≠ newName then
          match st.vendors.find? (fun (v : VendorRow) => v.id == vid) with
          | some vendor =>
              { st with vendors :=
                  st.vendors.map (fun (u : VendorRow) =>
                    if u.id = vendor.id then renamedVendor vendor oldName newName else u) }
          | none => st
        else st
    | _, _ => st
  { st1 with invoice := { st1.invoice with vendorName := some newName } }

/-! ## Extraction client (aiExtractor.ts lines 95-153) -/

inductive StopReason
  | refusal
  | maxTokens
  | endTurn
deriving DecidableEq

/-- A model reply at the API boundary.  Structured outputs guarantee the text
block decodes against the wire schema aiExtractionSchema (aiExtractor.ts
lines 12-54), which constrains confidence only to be a number — so
`textBlock` carries an arbitrary ExtractionResult when a text block is
present. -/
structure ModelResponse where
  stopReason : StopReason
  textBlock : Option ExtractionResult
  inputTokens : ℕ
  outputTokens : ℕ
deriving DecidableEq

/-- aiExtractor.ts line 69. -/
def MODEL : String := "claude-sonnet-4-5-20250929"

/-- aiExtractor.ts lines 95-153: classify refusal and truncation, then return
the decoded structured payload without any further local validation (line 145
is a plain JSON.parse cast). -/
def extractInvoiceData (resp : ModelResponse) : Except String ExtractionResponse :=
  match resp.stopReason with
  | .refusal => .error "Claude refused to process this image for safety reasons."
  | .maxTokens =>
      .error "Response was truncated due to token limit. The invoice may be too complex."
  | .endTurn =>
      match resp.textBlock with
      | none => .error "No text content in Claude response."
      | some parsed =>
          .ok { data := parsed, model := MODEL,
                inputTokens := resp.inputTokens, outputTokens := resp.outputTokens }

/-! ## Orchestrator lemmas -/

lemma upsertVendor_invoice (st : DBState) (r : ExtractionResult) :
    (upsertVendor st r).2.invoice = st.invoice := by
  unfold upsertVendor
  split
  · rfl
  · split <;> rfl

lemma upsertVendor_lineItems (st : DBState) (r : ExtractionResult) :
    (upsertVendor st r).2.lineItems = st.lineItems := by
  unfold upsertVendor
  split
  · rfl
  · split <;> rfl

lemma append_mapWithIndex_guard {α β : Type} (l : List β) (f : ℕ → α → β)
    (items : List α) :
    (if 0 < items.length then l ++ mapWithIndex f 0 items else l) =
      l ++ mapWithIndex f 0 items := by
  cases items with
  | nil => simp [mapWithIndex]
  | cons x xs => rw [if_pos (by simp)]

/-- C2: a result below the 0.15 floor marks the invoice failed, stores the
confidence, the raw payload and the illegibility note, and leaves the vendor
registry and line-item store untouched; a result at or above the floor marks
the invoice review and appends the result's line items. -/
theorem confidence_gate (invoiceId : ℕ) (resp : ExtractionResponse) (now : String)
    (st : DBState) :
    (resp.data.confidence < CONFIDENCE_FLOOR →
      (runExtraction invoiceId (.ok resp) now st).invoice.status = .failed ∧
      (runExtraction invoiceId (.ok resp) now st).invoice.overallConfidence =
        some resp.data.confidence ∧
      (runExtraction invoiceId (.ok resp) now st).invoice.rawExtraction =
        some (.payload resp.data) ∧
      (runExtraction invoiceId (.ok resp) now st).invoice.reviewNotes =
        some "Document type unrecognized or illegible" ∧
      (runExtraction invoiceId (.ok resp) now st).vendors = st.vendors ∧
      (runExtraction invoiceId (.ok resp) now st).nextVendorId = st.nextVendorId ∧
      (runExtraction invoiceId (.ok resp) now st).lineItems = st.lineItems) ∧
    (CONFIDENCE_FLOOR ≤ resp.data.confidence →
      (runExtraction invoiceId (.ok resp) now st).invoice.status = .review ∧
      (runExtraction invoiceId (.ok resp) now st).lineItems =
        st.lineItems ++
          mapWithIndex (toLineItemRow invoiceId resp.data.confidence) 0
            resp.data.lineItems) := by
  constructor
  · intro hlt
    simp only [runExtraction]
    rw [if_pos hlt]
    exact ⟨rfl, rfl, rfl, rfl, rfl, rfl, rfl⟩
  · intro hge
    simp only [runExtraction]
    rw [if_neg (not_lt.mpr hge)]
    refine ⟨rfl, ?_⟩
    show (if 0 < resp.data.lineItems.length then
        (upsertVendor st resp.data).2.lineItems ++
          mapWithIndex (toLineItemRow invoiceId resp.data.confidence) 0
            resp.data.lineItems
      else (upsertVendor st resp.data).2.lineItems) = _
    rw [upsertVendor_lineItems, append_mapWithIndex_guard]

/-- C3: every orchestration run on a processing invoice terminates with the
invoice in exactly review or failed, and on the exception path the raw
extraction payload records the error message and the timestamp. -/
theorem terminal_status (invoiceId : ℕ) (stage : Except String ExtractionResponse)
    (now : String) (st : DBState) (_hp : st.invoice.status = .processing) :
    ((runExtraction invoiceId stage now st).invoice.status = .review ∨
     (runExtraction invoiceId stage now st).invoice.status = .failed) ∧
    (∀ e, stage = .error e →
      (runExtraction invoiceId stage now st).invoice.rawExtraction =
        some (.error e now)) := by
  cases stage with
  | error e =>
      refine ⟨Or.inr rfl, ?_⟩
      intro e' he'
      injection he' with h
      subst h
      rfl
  | ok resp =>
      refine ⟨?_, fun e he => Except.noConfusion he⟩
      by_cases hlt : resp.data.confidence < CONFIDENCE_FLOOR
      · right
        simp only [runExtraction]
        rw [if_pos hlt]
      · left
        simp only [runExtraction]
        rw [if_neg hlt]

/-- C10: a gated-through result whose vendor name is the empty string skips
vendor reconciliation entirely (no vendor row created or updated), yet the
invoice still reaches review with a null vendorId and the line items are
inserted. -/
theorem empty_vendor_name_skips_reconciliation (invoiceId : ℕ)
    (resp : ExtractionResponse) (now : String) (st : DBState)
    (hname : resp.data.vendor.name = "")
    (hconf : CONFIDENCE_FLOOR ≤ resp.data.confidence) :
    (runExtraction invoiceId (.ok resp) now st).vendors = st.vendors ∧
    (runExtraction invoiceId (.ok resp) now st).nextVendorId = st.nextVendorId ∧
    (runExtraction invoiceId (.ok resp) now st).invoice.status = .review ∧
    (runExtraction invoiceId (.ok resp) now st).invoice.vendorId = none ∧
    (runExtraction invoiceId (.ok resp) now st).lineItems =
      st.lineItems ++
        mapWithIndex (toLineItemRow invoiceId resp.data.confidence) 0
          resp.data.lineItems := by
  have hup : upsertVendor st resp.data = (none, st) := by
    unfold upsertVendor
    rw [if_pos hname]
  simp only [runExtraction]
  rw [if_neg (not_lt.mpr hconf)]
  rw [hup]
  exact ⟨rfl, rfl, rfl, rfl, append_mapWithIndex_guard _ _ _⟩

/-! ## Concrete sample data -/

def sampleLineItem (desc : String) : AiLineItem :=
  { lineNumber := none, description := desc, quantity := none, unitPrice := none,
    amount := 10, taxRate := none, taxAmount := none, category := none,
    sku := none, unit := none, confidence := none }

def sampleResult (vendorName desc : String) (amount conf : ℚ) : ExtractionResult :=
  { vendor := { name := vendorName, address := none, taxId := none,
                email := none, phone := none },
    invoiceNumber := none, invoiceDate := none, dueDate := none, currency := "USD",
    subtotal := none, taxAmount := none, discountAmount := none,
    totalAmount := amount, lineItems := [sampleLineItem desc],
    confidence := conf, fieldConfidences := [] }

def sampleResp (vendorName desc : String) (amount conf : ℚ) : ExtractionResponse :=
  { data := sampleResult vendorName desc amount conf, model := MODEL,
    inputTokens := 0, outputTokens := 0 }

def blankInvoice : InvoiceRow :=
  { status := .processing, vendorId := none, vendorName := none,
    invoiceNumber := none, invoiceDate := none, dueDate := none, currency := none,
    subtotal := none, taxAmount := none, discountAmount := none, totalAmount := none,
    overallConfidence := none, fieldConfidences := none, rawExtraction := none,
    extractionModel := none, reviewNotes := none }

def initialState : DBState :=
  { invoice := blankInvoice, vendors := [], lineItems := [], nextVendorId := 0 }

/-- C1: the persistence step only inserts line items (invoices.ts lines
493-511 contain no delete), so after a successful run that persisted one line
item, a successful manual retry leaves the invoice with both attempts' line
items — the first attempt's item is still present, contradicting full
replacement. -/
theorem lineitem_duplication_on_retry :
    (retryExtraction 1 (.ok (sampleResp "Acme Corp" "Widget B" 10 (9/10))) "t2"
        (runExtraction 1 (.ok (sampleResp "Acme Corp" "Widget A" 10 (9/10))) "t1"
          initialState)).invoice.status = .review ∧
    (retryExtraction 1 (.ok (sampleResp "Acme Corp" "Widget B" 10 (9/10))) "t2"
        (runExtraction 1 (.ok (sampleResp "Acme Corp" "Widget A" 10 (9/10))) "t1"
          initialState)).lineItems.length = 2 ∧
    ((retryExtraction 1 (.ok (sampleResp "Acme Corp" "Widget B" 10 (9/10))) "t2"
        (runExtraction 1 (.ok (sampleResp "Acme Corp" "Widget A" 10 (9/10))) "t1"
          initialState)).lineItems.filter
        (fun li => li.description == "Widget A")).length = 1 := by
  have hacme : ¬(("Acme Corp" : String) = "") := by decide
  have hwa : (("Widget B" : String) == "Widget A") = false := by decide
  norm_num [retryExtraction, runExtraction, CONFIDENCE_FLOOR, upsertVendor,
    sampleResp, sampleResult, sampleLineItem, initialState, blankInvoice,
    mapWithIndex, toLineItemRow, matchesVendor, newVendorRow, updatedVendor,
    appendAlias, normalizeName, List.find?, List.filter, hacme, hwa]

/-- C6: the extraction client accepts a normal completion whose confidence is
3/2: aiExtractionSchema constrains confidence only to be a number and line
145 of aiExtractor.ts casts without validating, so the returned result
violates the [0,1] bound that the shared extractionResultSchema declares. -/
theorem confidence_not_validated :
    ∃ resp : ModelResponse, ∃ out : ExtractionResponse,
      extractInvoiceData resp = .ok out ∧
      out.data.confidence = 3/2 ∧
      extractionResultSchemaConfidenceOk out.data = false ∧
      ¬out.data.confidence ≤ 1 := by
  refine ⟨{ stopReason := .endTurn,
            textBlock := some (sampleResult "Acme Corp" "Widget" 10 (3/2)),
            inputTokens := 0, outputTokens := 0 },
          { data := sampleResult "Acme Corp" "Widget" 10 (3/2), model := MODEL,
            inputTokens := 0, outputTokens := 0 },
          rfl, rfl, ?_, ?_⟩
  · have hc : ¬((3 : ℚ)/2 ≤ 1) := by norm_num
    simp [extractionResultSchemaConfidenceOk, sampleResult, hc]
  · norm_num [sampleResult]

/-! ## Vendor aggregate invariant (C4) -/

lemma find?_append_left_none {α : Type} (p : α → Bool) (l₁ l₂ : List α)
    (h : ∀ x ∈ l₁, p x = false) : (l₁ ++ l₂).find? p = l₂.find? p := by
  induction l₁ with
  | nil => rfl
  | cons a l ih =>
      rw [List.cons_append, List.find?_cons_of_neg _ (by simp [h a (by simp)])]
      exact ih (fun x hx => h x (by simp [hx]))

lemma matchesVendor_of_name {v : VendorRow} {name : String} (h : v.name = name) :
    matchesVendor v name = true := by
  simp [matchesVendor, h]

lemma map_preserve_of_id_ne {l : List VendorRow} {wid : ℕ} {updated : VendorRow}
    (h : ∀ u ∈ l, u.id ≠ wid) :
    l.map (fun u => if u.id = wid then updated else u) = l := by
  induction l with
  | nil => rfl
  | cons a t ih =>
      rw [List.map_cons, if_neg (h a (by simp)),
        ih (fun u hu => h u (by simp [hu]))]

lemma upsertVendor_matched (st : DBState) (r : ExtractionResult)
    (pre post : List VendorRow) (w : VendorRow)
    (hvend : st.vendors = pre ++ w :: post)
    (hpre : ∀ u ∈ pre, matchesVendor u r.vendor.name = false)
    (hpreid : ∀ u ∈ pre, u.id ≠ w.id)
    (hpostid : ∀ u ∈ post, u.id ≠ w.id)
    (hmatch : matchesVendor w r.vendor.name = true)
    (hne : r.vendor.name ≠ "") :
    upsertVendor st r =
      (some w.id,
       { st with vendors :=
          pre ++ updatedVendor w r.vendor.name r.totalAmount :: post }) := by
  have hfind : st.vendors.find? (fun v => matchesVendor v r.vendor.name) = some w := by
    rw [hvend, find?_append_left_none _ _ _ hpre]
    simp [List.find?_cons, hmatch]
  have hmap : st.vendors.map
      (fun u => if u.id = w.id then updatedVendor w r.vendor.name r.totalAmount else u) =
      pre ++ updatedVendor w r.vendor.name r.totalAmount :: post := by
    rw [hvend, List.map_append, map_preserve_of_id_ne hpreid, List.map_cons,
      if_pos rfl, map_preserve_of_id_ne hpostid]
  unfold upsertVendor
  rw [if_neg hne, hfind]
  simp only [hmap]

lemma upsertVendor_inserted (st : DBState) (r : ExtractionResult)
    (hne : r.vendor.name ≠ "")
    (hnone : st.vendors.find? (fun v => matchesVendor v r.vendor.name) = none) :
    upsertVendor st r =
      (some st.nextVendorId,
       { st with vendors := st.vendors ++ [newVendorRow r st.nextVendorId],
                 nextVendorId := st.nextVendorId + 1 }) := by
  unfold upsertVendor
  rw [if_neg hne, hnone]

lemma runExtraction_vendors (invoiceId : ℕ) (r : ExtractionResponse) (now : String)
    (st : DBState) (h : CONFIDENCE_FLOOR ≤ r.data.confidence) :
    (runExtraction invoiceId (.ok r) now st).vendors =
      (upsertVendor st r.data).2.vendors := by
  simp only [runExtraction]
  rw [if_neg (not_lt.mpr h)]

lemma runSeq_aggregate (invoiceId : ℕ) (now v : String) (hv : v ≠ "") :
    ∀ (rs : List ExtractionResponse) (st : DBState) (base : List VendorRow)
      (w : VendorRow),
      (∀ r ∈ rs, r.data.vendor.name = v) →
      (∀ r ∈ rs, CONFIDENCE_FLOOR ≤ r.data.confidence) →
      st.vendors = base ++ [w] →
      (∀ u ∈ base, matchesVendor u v = false) →
      (∀ u ∈ base, u.id ≠ w.id) →
      w.name = v →
      w.aliases = [v] →
      ∃ w' : VendorRow,
        (runSeq invoiceId now rs st).vendors = base ++ [w'] ∧
        w'.id = w.id ∧ w'.name = v ∧ w'.aliases = [v] ∧
        w'.totalInvoices = w.totalInvoices + rs.length ∧
        w'.totalSpend = w.totalSpend + (rs.map (fun r => r.data.totalAmount)).sum ∧
        (rs = [] → w' = w) ∧
        (rs ≠ [] →
          w'.averageInvoiceAmount = w'.totalSpend / (w'.totalInvoices : ℚ)) := by
  intro rs
  induction rs with
  | nil =>
      intro st base w _ _ hvend _ _ hw halias
      exact ⟨w, by simpa [runSeq] using hvend, rfl, hw, halias, by simp, by simp,
        fun _ => rfl, fun h => absurd rfl h⟩
  | cons r rest ih =>
      intro st base w hname hconf hvend hbase hid hw halias
      have hrname : r.data.vendor.name = v := hname r (by simp)
      have hrconf : CONFIDENCE_FLOOR ≤ r.data.confidence := hconf r (by simp)
      have hmatch : matchesVendor w r.data.vendor.name = true := by
        rw [hrname]; exact matchesVendor_of_name hw
      have hbase' : ∀ u ∈ base, matchesVendor u r.data.vendor.name = false :=
        fun u hu => by rw [hrname]; exact hbase u hu
      have hne : r.data.vendor.name ≠ "" := by rw [hrname]; exact hv
      have hup := upsertVendor_matched st r.data base [] w hvend hbase' hid
        (fun u hu => absurd hu (List.not_mem_nil u)) hmatch hne
      have hstep : (runExtraction invoiceId (.ok r) now st).vendors =
          base ++ [updatedVendor w r.data.vendor.name r.data.totalAmount] := by
        rw [runExtraction_vendors _ _ _ _ hrconf, hup]
      have hw1name : (updatedVendor w r.data.vendor.name r.data.totalAmount).name = v := by
        simp [updatedVendor, hw]
      have hw1alias :
          (updatedVendor w r.data.vendor.name r.data.totalAmount).aliases = [v] := by
        simp [updatedVendor, appendAlias, halias, hrname]
      have hw1id : (updatedVendor w r.data.vendor.name r.data.totalAmount).id = w.id := rfl
      have hid' : ∀ u ∈ base,
          u.id ≠ (updatedVendor w r.data.vendor.name r.data.totalAmount).id :=
        fun u hu => by rw [hw1id]; exact hid u hu
      obtain ⟨w', hvend', hid'', hname', halias', hcount', hspend', hnil', havg'⟩ :=
        ih (runExtraction invoiceId (.ok r) now st) base
          (updatedVendor w r.data.vendor.name r.data.totalAmount)
          (fun x hx => hname x (by simp [hx])) (fun x hx => hconf x (by simp [hx]))
          hstep hbase hid' hw1name hw1alias
      refine ⟨w', hvend', by rw [hid'', hw1id], hname', halias', ?_, ?_, ?_, ?_⟩
      · rw [hcount']
        simp [updatedVendor]
        omega
      · rw [hspend']
        simp [updatedVendor]
        ring
      · intro h
        exact absurd h (by simp)
      · intro _
        rcases eq_or_ne rest [] with hrest | hrest
        · rw [hnil' hrest]
          simp [updatedVendor]
        · exact havg' hrest

/-- C4: N sequential gated-through extractions reporting the same non-empty
vendor name against a registry with no matching vendor leave exactly one
vendor row for that name, with totalInvoices = N, totalSpend the sum of the
N invoice totals, averageInvoiceAmount that sum divided by N, and the name
appearing in the alias set exactly once. -/
theorem vendor_aggregate_invariant (invoiceId : ℕ) (now v : String)
    (rs : List ExtractionResponse) (st : DBState)
    (hv : v ≠ "") (hr : rs ≠ [])
    (hname : ∀ r ∈ rs, r.data.vendor.name = v)
    (hconf : ∀ r ∈ rs, CONFIDENCE_FLOOR ≤ r.data.confidence)
    (hfresh : ∀ u ∈ st.vendors, matchesVendor u v = false)
    (hids : ∀ u ∈ st.vendors, u.id < st.nextVendorId) :
    ∃ w : VendorRow,
      (runSeq invoiceId now rs st).vendors = st.vendors ++ [w] ∧
      w.name = v ∧ w.aliases = [v] ∧ w.aliases.count v = 1 ∧
      w.totalInvoices = rs.length ∧
      w.totalSpend = (rs.map (fun r => r.data.totalAmount)).sum ∧
      w.averageInvoiceAmount =
        (rs.map (fun r => r.data.totalAmount)).sum / (rs.length : ℚ) ∧
      ((runSeq invoiceId now rs st).vendors.filter
        (fun u => matchesVendor u v)).length = 1 := by
  obtain ⟨r, rest, rfl⟩ := List.exists_cons_of_ne_nil hr
  have hrname : r.data.vendor.name = v := hname r (by simp)
  have hrconf : CONFIDENCE_FLOOR ≤ r.data.confidence := hconf r (by simp)
  have hne : r.data.vendor.name ≠ "" := by rw [hrname]; exact hv
  have hnone : st.vendors.find? (fun u => matchesVendor u r.data.vendor.name) = none := by
    apply List.find?_eq_none.mpr
    intro x hx
    rw [hrname]
    simp [hfresh x hx]
  have hup := upsertVendor_inserted st r.data hne hnone
  have hstep : (runExtraction invoiceId (.ok r) now st).vendors =
      st.vendors ++ [newVendorRow r.data st.nextVendorId] := by
    rw [runExtraction_vendors _ _ _ _ hrconf, hup]
  have hw0name : (newVendorRow r.data st.nextVendorId).name = v := by
    simp [newVendorRow, hrname]
  have hw0alias : (newVendorRow r.data st.nextVendorId).aliases = [v] := by
    simp [newVendorRow, hrname]
  have hw0id : ∀ u ∈ st.vendors, u.id ≠ (newVendorRow r.data st.nextVendorId).id :=
    fun u hu => by simp only [newVendorRow]; exact (hids u hu).ne
  obtain ⟨w', hvend', _hid', hname', halias', hcount', hspend', hnil', havg'⟩ :=
    runSeq_aggregate invoiceId now v hv rest
      (runExtraction invoiceId (.ok r) now st) st.vendors
      (newVendorRow r.data st.nextVendorId)
      (fun x hx => hname x (by simp [hx])) (fun x hx => hconf x (by simp [hx]))
      hstep hfresh hw0id hw0name hw0alias
  have hfold : runSeq invoiceId now (r :: rest) st =
      runSeq invoiceId now rest (runExtraction invoiceId (.ok r) now st) := rfl
  have hcountN : w'.totalInvoices = (r :: rest).length := by
    rw [hcount']
    simp [newVendorRow]
    omega
  have hspendN : w'.totalSpend = ((r :: rest).map (fun x => x.data.totalAmount)).sum := by
    rw [hspend']
    simp [newVendorRow]
  refine ⟨w', by rw [hfold]; exact hvend', hname', halias', ?_, hcountN, hspendN, ?_, ?_⟩
  · rw [halias']
    simp
  · rcases eq_or_ne rest [] with hrest | hrest
    · have hww : w' = newVendorRow r.data st.nextVendorId := hnil' hrest
      subst hrest
      rw [hww]
      simp [newVendorRow]
    · rw [havg' hrest, hcountN, hspendN]
  · rw [hfold, hvend', List.filter_append]
    have hnil : st.vendors.filter (fun u => matchesVendor u v) = [] :=
      List.filter_eq_nil_iff.mpr (fun u hu => by simp [hfresh u hu])
    rw [hnil]
    simp [List.filter, matchesVendor_of_name hname']

/-! ## Rename then rematch (C5) -/

lemma contains_appendAlias (l : List String) (a : String) :
    (appendAlias l a).contains a = true := by
  unfold appendAlias
  split
  · rename_i h
    exact h
  · simp

lemma matchesVendor_of_alias {v : VendorRow} {name : String}
    (h : v.aliases.contains name = true) : matchesVendor v name = true := by
  have hm : name ∈ v.aliases := by simpa using h
  simp [matchesVendor, hm]

lemma runExtraction_vendorId (invoiceId : ℕ) (r : ExtractionResponse) (now : String)
    (st : DBState) (h : CONFIDENCE_FLOOR ≤ r.data.confidence) :
    (runExtraction invoiceId (.ok r) now st).invoice.vendorId =
      (upsertVendor st r.data).1 := by
  simp only [runExtraction]
  rw [if_neg (not_lt.mpr h)]

/-- The vendor-rename branch of PATCH /:id, evaluated when the invoice is
linked to vendor w (first row with that id) and stores the non-empty old name
A, and the reviewer supplies a different new name B: the old name is
idempotently appended to w's aliases and the name and normalized name are
overwritten. -/
lemma patchVendorRename_eq (st : DBState) (A B : String)
    (pre post : List VendorRow) (w : VendorRow)
    (hvendors : st.vendors = pre ++ w :: post)
    (hpreid : ∀ u ∈ pre, u.id ≠ w.id)
    (hpostid : ∀ u ∈ post, u.id ≠ w.id)
    (hinvid : st.invoice.vendorId = some w.id)
    (hinvname : st.invoice.vendorName = some A)
    (hA : A ≠ "") (hAB : A ≠ B) :
    patchVendorRename st B =
      { st with
        vendors := pre ++ renamedVendor w A B :: post,
        invoice := { st.invoice with vendorName := some B } } := by
  have hfindid : st.vendors.find? (fun (v : VendorRow) => v.id == w.id) = some w := by
    rw [hvendors,
      find?_append_left_none _ _ _
        (fun u hu => beq_eq_false_iff_ne.mpr (hpreid u hu))]
    simp [List.find?_cons]
  have hmap : st.vendors.map
      (fun (u : VendorRow) => if u.id = w.id then renamedVendor w A B else u) =
      pre ++ renamedVendor w A B :: post := by
    rw [hvendors, List.map_append, map_preserve_of_id_ne hpreid, List.map_cons,
      if_pos rfl, map_preserve_of_id_ne hpostid]
  unfold patchVendorRename
  rw [hinvid, hinvname]
  simp only
  rw [if_pos ⟨hA, hAB⟩, hfindid]
  simp only [hmap]

/-- C5: after a reviewer renames a vendor from A to B through the invoice
update path, the old name A sits in the vendor's alias set, the combined
lookup matches the renamed row for A via the alias branch, and a subsequent
gated-through extraction reporting A links the invoice to the same vendor id
without growing the registry. -/
theorem rename_then_rematch (invoiceId : ℕ) (now A B : String)
    (resp : ExtractionResponse) (st : DBState)
    (pre post : List VendorRow) (w : VendorRow)
    (hvendors : st.vendors = pre ++ w :: post)
    (hpreid : ∀ u ∈ pre, u.id ≠ w.id)
    (hpostid : ∀ u ∈ post, u.id ≠ w.id)
    (hinvid : st.invoice.vendorId = some w.id)
    (hinvname : st.invoice.vendorName = some A)
    (hA : A ≠ "") (hAB : A ≠ B)
    (hprematch : ∀ u ∈ pre, matchesVendor u A = false)
    (hrespname : resp.data.vendor.name = A)
    (hconf : CONFIDENCE_FLOOR ≤ resp.data.confidence) :
    ((patchVendorRename st B).vendors = pre ++ renamedVendor w A B :: post) ∧
    (renamedVendor w A B).aliases.contains A = true ∧
    matchesVendor (renamedVendor w A B) A = true ∧
    (runExtraction invoiceId (.ok resp) now (patchVendorRename st B)).invoice.vendorId =
      some w.id ∧
    (runExtraction invoiceId (.ok resp) now (patchVendorRename st B)).vendors.length =
      st.vendors.length := by
  have hpatch := patchVendorRename_eq st A B pre post w hvendors hpreid hpostid
    hinvid hinvname hA hAB
  have hvend1 : (patchVendorRename st B).vendors =
      pre ++ renamedVendor w A B :: post := by
    rw [hpatch]
  have halias : (renamedVendor w A B).aliases.contains A = true :=
    contains_appendAlias w.aliases A
  have hmatch : matchesVendor (renamedVendor w A B) A = true :=
    matchesVendor_of_alias halias
  have hne : resp.data.vendor.name ≠ "" := by rw [hrespname]; exact hA
  have hup := upsertVendor_matched (patchVendorRename st B) resp.data pre post
    (renamedVendor w A B) hvend1
    (fun u hu => by rw [hrespname]; exact hprematch u hu)
    hpreid hpostid
    (by rw [hrespname]; exact hmatch) hne
  refine ⟨hvend1, halias, hmatch, ?_, ?_⟩
  · rw [runExtraction_vendorId _ _ _ _ hconf, hup]
    rfl
  · rw [runExtraction_vendors _ _ _ _ hconf, hup, hvendors]
    simp

/-! ## Witnesses -/

/-- Witness for C7 at a 4096 x 1024 input. -/
theorem image_dimensions_spec_witness :
    (processImage 4096 1024).width =
      jsRound (((4096 : ℕ) : ℚ) *
        min ((2048 : ℚ) / ((4096 : ℕ) : ℚ)) ((2048 : ℚ) / ((1024 : ℕ) : ℚ))) ∧
    (processImage 4096 1024).height =
      jsRound (((1024 : ℕ) : ℚ) *
        min ((2048 : ℚ) / ((4096 : ℕ) : ℚ)) ((2048 : ℚ) / ((1024 : ℕ) : ℚ))) ∧
    max (processImage 4096 1024).width (processImage 4096 1024).height ≤ 2048 :=
  (image_dimensions_spec 4096 1024 (by norm_num) (by norm_num)).2 (by norm_num)

/-- Witness for C8 at 3-page and 7-page documents. -/
theorem pdf_page_cap_witness :
    (processPdf 3 100 200 300 400).pagesRendered = 3 ∧
    (processPdf 7 100 200 300 400).pagesRendered = 5 ∧
    (processPdf 7 100 200 300 400).pageCount = 7 :=
  ⟨(pdf_page_cap 3 100 200 300 400).1 (by norm_num),
   (pdf_page_cap 7 100 200 300 400).2.1 (by norm_num),
   (pdf_page_cap 7 100 200 300 400).2.2⟩

/-- Witness for C2 at confidence 0.10 (failed, nothing persisted) and 0.20
(review, line items appended). -/
theorem confidence_gate_witness :
    ((runExtraction 1 (.ok (sampleResp "Acme Corp" "Widget" 100 (1/10))) "t"
        initialState).invoice.status = .failed ∧
     (runExtraction 1 (.ok (sampleResp "Acme Corp" "Widget" 100 (1/10))) "t"
        initialState).invoice.overallConfidence =
          some (sampleResp "Acme Corp" "Widget" 100 (1/10)).data.confidence ∧
     (runExtraction 1 (.ok (sampleResp "Acme Corp" "Widget" 100 (1/10))) "t"
        initialState).invoice.rawExtraction =
          some (.payload (sampleResp "Acme Corp" "Widget" 100 (1/10)).data) ∧
     (runExtraction 1 (.ok (sampleResp "Acme Corp" "Widget" 100 (1/10))) "t"
        initialState).invoice.reviewNotes =
          some "Document type unrecognized or illegible" ∧
     (runExtraction 1 (.ok (sampleResp "Acme Corp" "Widget" 100 (1/10))) "t"
        initialState).vendors = initialState.vendors ∧
     (runExtraction 1 (.ok (sampleResp "Acme Corp" "Widget" 100 (1/10))) "t"
        initialState).nextVendorId = initialState.nextVendorId ∧
     (runExtraction 1 (.ok (sampleResp "Acme Corp" "Widget" 100 (1/10))) "t"
        initialState).lineItems = initialState.lineItems) ∧
    ((runExtraction 1 (.ok (sampleResp "Acme Corp" "Widget" 100 (2/10))) "t"
        initialState).invoice.status = .review ∧
     (runExtraction 1 (.ok (sampleResp "Acme Corp" "Widget" 100 (2/10))) "t"
        initialState).lineItems =
        initialState.lineItems ++
          mapWithIndex
            (toLineItemRow 1 (sampleResp "Acme Corp" "Widget" 100 (2/10)).data.confidence)
            0 (sampleResp "Acme Corp" "Widget" 100 (2/10)).data.lineItems) :=
  ⟨(confidence_gate 1 (sampleResp "Acme Corp" "Widget" 100 (1/10)) "t"
      initialState).1
      (by norm_num [sampleResp, sampleResult, CONFIDENCE_FLOOR]),
   (confidence_gate 1 (sampleResp "Acme Corp" "Widget" 100 (2/10)) "t"
      initialState).2
      (by norm_num [sampleResp, sampleResult, CONFIDENCE_FLOOR])⟩

/-- Witness for C3 at a processing invoice and a thrown "boom" error. -/
theorem terminal_status_witness :
    ((runExtraction 1 (.error "boom") "t" initialState).invoice.status = .review ∨
     (runExtraction 1 (.error "boom") "t" initialState).invoice.status = .failed) ∧
    (∀ e, (.error "boom" : Except String ExtractionResponse) = .error e →
      (runExtraction 1 (.error "boom") "t" initialState).invoice.rawExtraction =
        some (.error e "t")) :=
  terminal_status 1 (.error "boom") "t" initialState rfl

/-- Witness for C4: two extractions for vendor "Acme" with totals 100 and 50
against an empty registry. -/
theorem vendor_aggregate_invariant_witness :
    ∃ w : VendorRow,
      (runSeq 1 "t"
        [sampleResp "Acme" "W1" 100 (9/10), sampleResp "Acme" "W2" 50 (9/10)]
        initialState).vendors = initialState.vendors ++ [w] ∧
      w.name = "Acme" ∧ w.aliases = ["Acme"] ∧ w.aliases.count "Acme" = 1 ∧
      w.totalInvoices =
        [sampleResp "Acme" "W1" 100 (9/10), sampleResp "Acme" "W2" 50 (9/10)].length ∧
      w.totalSpend =
        ([sampleResp "Acme" "W1" 100 (9/10), sampleResp "Acme" "W2" 50 (9/10)].map
          (fun r => r.data.totalAmount)).sum ∧
      w.averageInvoiceAmount =
        ([sampleResp "Acme" "W1" 100 (9/10), sampleResp "Acme" "W2" 50 (9/10)].map
          (fun r => r.data.totalAmount)).sum /
          (([sampleResp "Acme" "W1" 100 (9/10),
             sampleResp "Acme" "W2" 50 (9/10)].length : ℕ) : ℚ) ∧
      ((runSeq 1 "t"
        [sampleResp "Acme" "W1" 100 (9/10), sampleResp "Acme" "W2" 50 (9/10)]
        initialState).vendors.filter (fun u => matchesVendor u "Acme")).length = 1 :=
  vendor_aggregate_invariant 1 "t" "Acme"
    [sampleResp "Acme" "W1" 100 (9/10), sampleResp "Acme" "W2" 50 (9/10)]
    initialState
    (by decide) (by simp)
    (by intro r hr; simp at hr; rcases hr with h | h <;> subst h <;> rfl)
    (by
      intro r hr
      simp at hr
      rcases hr with h | h <;> subst h <;>
        norm_num [sampleResp, sampleResult, CONFIDENCE_FLOOR])
    (by intro u hu; simp [initialState] at hu)
    (by intro u hu; simp [initialState] at hu)

def acmeVendor : VendorRow :=
  { id := 0,
    name := "Acme Corp",
    normalizedName := "acme corp",
    aliases := ["Acme Corp"],
    taxId := none,
    address := none,
    email := none,
    phone := none,
    totalInvoices := 1,
    totalSpend := 100,
    averageInvoiceAmount := 100 }

def renameState : DBState :=
  { invoice :=
      { blankInvoice with
        vendorId := some 0,
        vendorName := some "Acme Corp" },
    vendors := [acmeVendor],
    lineItems := [],
    nextVendorId := 1 }

/-- Witness for C5: "Acme Corp" renamed to "Acme Corporation", then an
extraction reporting "Acme Corp" again. -/
theorem rename_then_rematch_witness :
    ((patchVendorRename renameState "Acme Corporation").vendors =
      [] ++ renamedVendor acmeVendor "Acme Corp" "Acme Corporation" :: []) ∧
    (renamedVendor acmeVendor "Acme Corp" "Acme Corporation").aliases.contains
      "Acme Corp" = true ∧
    matchesVendor (renamedVendor acmeVendor "Acme Corp" "Acme Corporation")
      "Acme Corp" = true ∧
    (runExtraction 1 (.ok (sampleResp "Acme Corp" "Widget" 100 (9/10))) "t"
      (patchVendorRename renameState "Acme Corporation")).invoice.vendorId =
      some acmeVendor.id ∧
    (runExtraction 1 (.ok (sampleResp "Acme Corp" "Widget" 100 (9/10))) "t"
      (patchVendorRename renameState "Acme Corporation")).vendors.length =
      renameState.vendors.length :=
  rename_then_rematch 1 "t" "Acme Corp" "Acme Corporation"
    (sampleResp "Acme Corp" "Widget" 100 (9/10)) renameState [] [] acmeVendor
    rfl
    (fun u hu => absurd hu (List.not_mem_nil u))
    (fun u hu => absurd hu (List.not_mem_nil u))
    rfl rfl (by decide) (by decide)
    (fun u hu => absurd hu (List.not_mem_nil u))
    rfl
    (by norm_num [sampleResp, sampleResult, CONFIDENCE_FLOOR])

/-- Witness for C10: a gated-through result with an empty vendor name. -/
theorem empty_vendor_name_witness :
    (runExtraction 1 (.ok (sampleResp "" "Widget" 100 (2/10))) "t"
      initialState).vendors = initialState.vendors ∧
    (runExtraction 1 (.ok (sampleResp "" "Widget" 100 (2/10))) "t"
      initialState).nextVendorId = initialState.nextVendorId ∧
    (runExtraction 1 (.ok (sampleResp "" "Widget" 100 (2/10))) "t"
      initialState).invoice.status = .review ∧
    (runExtraction 1 (.ok (sampleResp "" "Widget" 100 (2/10))) "t"
      initialState).invoice.vendorId = none ∧
    (runExtraction 1 (.ok (sampleResp "" "Widget" 100 (2/10))) "t"
      initialState).lineItems =
      initialState.lineItems ++
        mapWithIndex
          (toLineItemRow 1 (sampleResp "" "Widget" 100 (2/10)).data.confidence) 0
          (sampleResp "" "Widget" 100 (2/10)).data.lineItems :=
  empty_vendor_name_skips_reconciliation 1 (sampleResp "" "Widget" 100 (2/10))
    "t" initialState rfl
    (by norm_num [sampleResp, sampleResult, CONFIDENCE_FLOOR])

end InvoiceAI
